import Mathlib

/-!
Verification of the packler asset pipeline (Rust) against its
natural-language specification, via a shallow embedding in Lean 4.

Paths are modelled as lists of components (`List String`), matching the
component-wise semantics of Rust's `Path`/`PathBuf`.  Machine integers
are `Nat` reduced modulo `2 ^ 64` where the Rust code uses `u64`.
Fallible or panicking Rust code is embedded with `Option`/`Except`.
-/

namespace Packler

/-- A filesystem path, as its list of components (Rust `PathBuf`). -/
abbrev RPath := List String

/-- Join character-list components with `'/'` separators. -/
def joinC : List (List Char) → List Char
  | [] => []
  | [s] => s
  | s :: rest => s ++ '/' :: joinC rest

/-- Split a character list at every `'/'`. -/
def splitC : List Char → List (List Char)
  | [] => [[]]
  | c :: rest =>
    if c = '/' then [] :: splitC rest
    else
      match splitC rest with
      | [] => [[c]]
      | group :: groups => (c :: group) :: groups

/-- Render a path with `/` separators (Rust `Path::display` for relative
paths made of normal components). -/
def pathStr (p : RPath) : String :=
  String.mk (joinC (p.map String.toList))

/-- Split a rendered path back into components (Rust `PathBuf::from` on a
string; empty components are not normalized away, which agrees with Rust
on the well-formed paths the round-trip theorem quantifies over). -/
def unpathStr (s : String) : RPath :=
  (splitC s.toList).map String.mk

/-- Index of the last `'.'` in a character list, if any
(helper for Rust `file_stem` / `extension` semantics). -/
def lastDotIdx : List Char → Option Nat
  | [] => none
  | c :: cs =>
    match lastDotIdx cs with
    | some i => some (i + 1)
    | none => if c = '.' then some 0 else none

/-- Rust `Path::file_stem` / `Path::extension` on a file name: split at the
last dot, except that a dot at position 0 (hidden files like `.gitignore`)
does not start an extension. Returns `(stem, some ext)` or `(name, none)`. -/
def stemExt (name : String) : String × Option String :=
  match lastDotIdx name.toList with
  | none => (name, none)
  | some 0 => (name, none)
  | some i =>
    (String.mk (name.toList.take i), some (String.mk (name.toList.drop (i + 1))))

/-- Rust `Path::file_name`: the last component. -/
def fileName (p : RPath) : Option String :=
  p.getLast?

/-- Rust `Path::with_file_name` / `PathBuf::set_file_name` on a path that has
a file name: replace the last component. -/
def withFileName (p : RPath) (name : String) : RPath :=
  p.dropLast ++ [name]

/-- Rust `PathBuf::set_extension e` on a path whose last component is `name`:
the new file name is `file_stem(name) ++ "." ++ e`. -/
def setExt (p : RPath) (e : String) : RPath :=
  match fileName p with
  | none => p
  | some name => withFileName p ((stemExt name).1 ++ "." ++ e)

/-- Rust `Path::strip_prefix`: drop `pre` from the front of `p` when `pre`
is a component-wise prefix. -/
def dropPre (pre p : RPath) : Option RPath :=
  match pre, p with
  | [], ys => some ys
  | _ :: _, [] => none
  | x :: xs, y :: ys => if x = y then dropPre xs ys else none

/-- Lowercase minimal-width hexadecimal rendering of a `u64`, exactly Rust's
`format!("{:x}", h)` (no zero padding; `0` renders as `"0"`). -/
def hexU64 (h : Nat) : String :=
  String.mk (Nat.toDigits 16 h)

/-- Modelled from the spec: the external `seahash` collaborator crate is not
part of this repository; its contract is "given raw bytes, return a 64-bit
hash; pure function, no error conditions".  We model it as a concrete pure
fold producing a value below `2 ^ 64`; no claim depends on specific digest
values, only on purity and determinism. -/
def seaHash (bytes : List Nat) : Nat :=
  bytes.foldl (fun h b => (h * 1099511628211 + b % 256) % 2 ^ 64)
    (14695981039346656037 % 2 ^ 64)

/-- The hashed output file name, exactly the Rust
`format!("{}-{:x}.{}", stem, hash, ext)` of `images.rs` (and the analogous
`format!("{entrypoint_filestem}-{hash:x}.css")` of `sass.rs`). -/
def hashedName (stem : String) (hash : Nat) (ext : String) : String :=
  stem ++ "-" ++ hexU64 hash ++ "." ++ ext

/-- The naming operation of the Fingerprint & Naming component: rewrite the
file name of `p` to embed `hash`, i.e. the
`relative_path.with_file_name(hashed_name)` of `images.rs` lines 41-51.
`none` models the `unwrap()` panics when `p` has no file stem or no final
extension. -/
def hashedPath (p : RPath) (hash : Nat) : Option RPath :=
  match fileName p with
  | none => none
  | some name =>
    match stemExt name with
    | (_, none) => none
    | (stem, some ext) => some (withFileName p (hashedName stem hash ext))

/-- Static configuration (`PacklerConfig` in `lib.rs`). -/
structure PacklerConfig where
  assets_source_dir : RPath
  images_dir_name : String
  sass_dir_name : String
  sass_version : String
  target : RPath
  dist_dir : RPath
  metadata_filename : String
deriving Repr, DecidableEq

def PacklerConfig.source_image_dir (c : PacklerConfig) : RPath :=
  c.assets_source_dir ++ [c.images_dir_name]

def PacklerConfig.dist_image_dir (c : PacklerConfig) : RPath :=
  c.dist_dir ++ [c.images_dir_name]

def PacklerConfig.source_sass_dir (c : PacklerConfig) : RPath :=
  c.assets_source_dir ++ [c.sass_dir_name]

def PacklerConfig.dist_sass_dir (c : PacklerConfig) : RPath :=
  c.dist_dir ++ [c.sass_dir_name]

def PacklerConfig.metadata_file (c : PacklerConfig) : RPath :=
  c.dist_dir ++ [c.metadata_filename]

/-- One processed asset (`AssetMetadata` in `pipelines/assets/mod.rs`). -/
structure AssetMetadata where
  source_path : RPath
  logical_path : RPath
  processed_relative_path : RPath
  hash : Nat
deriving Repr, DecidableEq

/-- The manifest (`AssetsOutput` in `pipelines/assets/mod.rs`). -/
structure AssetsOutput where
  images : List AssetMetadata
  sass : List AssetMetadata
deriving Repr, DecidableEq

/-- `AssetsOutput::iter`: all records, images first, then stylesheets. -/
def AssetsOutput.iterAll (m : AssetsOutput) : List AssetMetadata :=
  m.images ++ m.sass

/-! ## Image pipeline (`pipelines/assets/images.rs`) -/

/-- One directory entry met by the walk: its absolute path, whether it is a
regular file, and the outcome of reading its bytes (`none` models a failing
`std::fs::read`, which the code `unwrap`s). -/
structure WalkEntry where
  path : RPath
  isFile : Bool
  content : Option (List Nat)
deriving Repr, DecidableEq

/-- One item yielded by the `WalkDir` iterator: an entry, or a walk error
(the `Err(e)` arm, which is logged as a warning and skipped). -/
inductive WalkItem where
  | entry : WalkEntry → WalkItem
  | walkErr : String → WalkItem
deriving Repr, DecidableEq

/-- The body of the `images.rs` closure for a regular-file entry:
strip the assets-source prefix, read and hash the bytes, and build the
record.  Every `.error` case is an `unwrap()`/panic in the Rust code
(failed `strip_prefix`, failed `std::fs::read`, missing stem or
extension). -/
def recordOf (cfg : PacklerConfig) (e : WalkEntry) : Except String AssetMetadata :=
  match dropPre cfg.assets_source_dir e.path with
  | none => .error "strip_prefix unwrap"
  | some relative_path =>
    match e.content with
    | none => .error "std fs read unwrap"
    | some bytes =>
      let hash := seaHash bytes
      match hashedPath relative_path hash with
      | none => .error "file_stem or extension unwrap"
      | some processed =>
        .ok { source_path := e.path
              logical_path := relative_path
              processed_relative_path := processed
              hash := hash }

/-- The metadata-collection phase of `images::process` (lines 19-65): a
`filter_map` over the walk in order, skipping walk errors (with a warning)
and non-file entries; a panic inside the closure aborts the whole stage,
which `Except.error` models. -/
def collectImages (cfg : PacklerConfig) : List WalkItem → Except String (List AssetMetadata)
  | [] => .ok []
  | .walkErr _ :: rest => collectImages cfg rest
  | .entry e :: rest =>
    if e.isFile then
      match recordOf cfg e with
      | .error s => .error s
      | .ok r => (collectImages cfg rest).map (r :: ·)
    else
      collectImages cfg rest

/-! ## Stylesheet pipeline (`pipelines/assets/sass.rs`, `common.rs`) -/

/-- Why one stylesheet entry point failed (`assets::Error` plus the
propagated I/O and tool errors; `panic` models an `expect`/`unwrap` that
aborts the whole process). -/
inductive SassErr where
  | entryPointDoesNotExist : String → SassErr
  | toolErr : SassErr
  | ioErr : SassErr
  | panic : String → SassErr
deriving Repr, DecidableEq

/-- The environment of external effects the stylesheet pipeline touches:
which paths exist, the spawn/exit outcome of a command (`none` = spawn
failure, `some c` = exit code `c`), the bytes read back from the
intermediate CSS file, and the success of the create-dir/copy/remove
filesystem calls. -/
structure SassEnv where
  pathExists : RPath → Bool
  spawn : RPath → List String → Option Nat
  readCss : RPath → Option (List Nat)
  mkdirOk : RPath → Bool
  copyOk : RPath → RPath → Bool
  removeOk : RPath → Bool

/-- `SassRun::intermediate_dir`: `target/packler/sass`. -/
def intermediateDir (cfg : PacklerConfig) : RPath :=
  cfg.target ++ ["packler", "sass"]

/-- The compiler argv built in `SassRun::run` lines 136-142:
`["--no-source-map", "-s", style, input, output]`. -/
def sassArgs (cfg : PacklerConfig) (entrypoint : RPath) (compress : Bool) : List String :=
  let style := if compress then "compressed" else "expanded"
  let original_path := cfg.source_sass_dir ++ entrypoint
  let prehash_file_path := setExt (intermediateDir cfg ++ entrypoint) "css"
  ["--no-source-map", "-s", style, pathStr original_path, pathStr prehash_file_path]

/-- `common::run_command`: spawn the command and succeed exactly when the
spawn succeeds and the exit status is success (exit code 0). -/
def runCommand (env : SassEnv) (path : RPath) (args : List String) : Except SassErr Unit :=
  match env.spawn path args with
  | none => .error .toolErr
  | some code => if code = 0 then .ok () else .error .toolErr

/-- `SassRun::run` for one entry point: existence check, compile, hash,
rename-by-copy, record.  The `.panic` cases are the `unwrap()`/`expect()`
calls of the Rust code. -/
def sassRunOne (cfg : PacklerConfig) (env : SassEnv) (sassPath : RPath)
    (entrypoint : RPath) (compress : Bool) : Except SassErr AssetMetadata :=
  let original_path := cfg.source_sass_dir ++ entrypoint
  if env.pathExists original_path = false then
    .error (.entryPointDoesNotExist (pathStr entrypoint))
  else
    match fileName original_path with
    | none => .error (.panic "file_stem unwrap")
    | some name =>
      let entrypoint_filestem := (stemExt name).1
      let prehash_file_path := setExt (intermediateDir cfg ++ entrypoint) "css"
      match runCommand env sassPath (sassArgs cfg entrypoint compress) with
      | .error e => .error e
      | .ok () =>
        match env.readCss prehash_file_path with
        | none => .error .ioErr
        | some bytes =>
          let hash := seaHash bytes
          let final_file_name := entrypoint_filestem ++ "-" ++ hexU64 hash ++ ".css"
          let final_file_path := withFileName (cfg.dist_sass_dir ++ entrypoint) final_file_name
          if env.mkdirOk final_file_path.dropLast = false then
            .error (.panic "could not create final directory")
          else if env.copyOk prehash_file_path final_file_path = false then
            .error (.panic "error copying the compiled SASS file")
          else if env.removeOk prehash_file_path = false then
            .error (.panic "error deleting the intermediate SASS file")
          else
            match dropPre cfg.assets_source_dir original_path,
                  dropPre cfg.dist_dir final_file_path with
            | some logical, some processed =>
              .ok { source_path := original_path
                    logical_path := logical
                    processed_relative_path := processed
                    hash := hash }
            | _, _ => .error (.panic "strip_prefix unwrap")

/-- Is this per-entry result a panic?  A panic inside one of the joined
futures unwinds the whole stage instead of being filtered out. -/
def isPanic (r : Except SassErr AssetMetadata) : Option String :=
  match r with
  | .error (.panic s) => some s
  | _ => none

/-- `SassRun::start`: resolve the compiler (`tools::get`; `none` is that
pipeline-level failure), run every entry point, and keep only the
successful results, in order.  A panic in any entry aborts the stage. -/
def sassStart (cfg : PacklerConfig) (env : SassEnv) (toolPath : Option RPath)
    (entrypoints : List RPath) : Except String (List AssetMetadata) :=
  match toolPath with
  | none => .error "could not resolve the sass tool"
  | some sassPath =>
    let results := entrypoints.map (fun e => sassRunOne cfg env sassPath e false)
    match (results.filterMap isPanic).head? with
    | some s => .error s
    | none => .ok (results.filterMap Except.toOption)

/-! ## Build orchestrator (`pipelines/assets/mod.rs`) -/

/-- `build_assets_inner`, abstracted over the two pipeline outcomes: an
`Err` from either pipeline is replaced by an empty list (with a warning),
and the merged output is always `Ok`. -/
def buildAssetsInner (imgRes sassRes : Except String (List AssetMetadata)) :
    Except String AssetsOutput :=
  let processed_images := match imgRes with | .ok l => l | .error _ => []
  let processed_sass := match sassRes with | .ok l => l | .error _ => []
  .ok { images := processed_images, sass := processed_sass }

/-! ## Manifest serialization (`write_metadata_file`, serde on
`AssetsOutput` / `AssetMetadata`) -/

/-- A JSON value (enough of serde_json's data model for the manifest:
the paths serialize as strings, `hash` is `#[serde(skip)]`-ped). -/
inductive Json where
  | str : String → Json
  | arr : List Json → Json
  | obj : List (String × Json) → Json
deriving Repr

/-- The field names of a JSON object. -/
def jsonKeys (j : Json) : List String :=
  match j with
  | .obj fields => fields.map Prod.fst
  | _ => []

/-- serde serialization of one `AssetMetadata`: the three path fields, in
declaration order; `hash` is skipped. -/
def serializeRecord (r : AssetMetadata) : Json :=
  .obj [("source_path", .str (pathStr r.source_path)),
        ("logical_path", .str (pathStr r.logical_path)),
        ("processed_relative_path", .str (pathStr r.processed_relative_path))]

/-- serde serialization of the whole manifest:
`{ "images": [...], "sass": [...] }`. -/
def serializeManifest (m : AssetsOutput) : Json :=
  .obj [("images", .arr (m.images.map serializeRecord)),
        ("sass", .arr (m.sass.map serializeRecord))]

/-- serde deserialization of a `PathBuf` from a JSON string: split on the
separator (`PathBuf::from`). -/
def parsePath (j : Json) : Option RPath :=
  match j with
  | .str s => some (unpathStr s)
  | _ => none

/-- Look up a field of a JSON object (first occurrence). -/
def jsonGet (j : Json) (key : String) : Option Json :=
  match j with
  | .obj fields => (fields.find? (fun f => f.1 = key)).map Prod.snd
  | _ => none

/-- serde deserialization of one record: the three path fields are
required; the skipped `hash` field takes its `Default` value `0`. -/
def parseRecord (j : Json) : Option AssetMetadata :=
  match jsonGet j "source_path", jsonGet j "logical_path",
        jsonGet j "processed_relative_path" with
  | some js, some jl, some jp =>
    match parsePath js, parsePath jl, parsePath jp with
    | some s, some l, some p =>
      some { source_path := s, logical_path := l,
             processed_relative_path := p, hash := 0 }
    | _, _, _ => none
  | _, _, _ => none

/-- Parse a list of JSON records, failing if any element fails. -/
def parseRecordList : List Json → Option (List AssetMetadata)
  | [] => some []
  | j :: rest =>
    match parseRecord j, parseRecordList rest with
    | some r, some rs => some (r :: rs)
    | _, _ => none

/-- Parse a JSON array of records. -/
def parseRecords (j : Json) : Option (List AssetMetadata) :=
  match j with
  | .arr items => parseRecordList items
  | _ => none

/-- serde deserialization of the whole manifest. -/
def parseManifest (j : Json) : Option AssetsOutput :=
  match jsonGet j "images", jsonGet j "sass" with
  | some ji, some js =>
    match parseRecords ji, parseRecords js with
    | some imgs, some sass => some { images := imgs, sass := sass }
    | _, _ => none
  | _, _ => none

/-- `build_assets`: build, then (unless the inner build failed, which in
fact never happens) write the manifest file.  The result is the JSON
content written to `<dist_dir>/assets.json`, or `none` if nothing was
written. -/
def buildAssets (imgRes sassRes : Except String (List AssetMetadata)) : Option Json :=
  match buildAssetsInner imgRes sassRes with
  | .error _ => none
  | .ok metadata => some (serializeManifest metadata)

/-! ## Deploy / upload stage (`deploy_assets`, `upload_assets`) -/

/-- External effects of the upload loop: MIME guessing from a path
(`none` models an unresolvable guess, which the code `expect`s), whether
the local file can be opened, and whether the S3 PUT succeeds. -/
structure UploadEnv where
  mime : RPath → Option String
  openOk : RPath → Bool
  uploadOk : String → Bool

/-- Outcome of `upload_assets`: missing bucket configuration (logged error,
immediate return, no uploads), a panic inside the loop, or the ordered list
of attempted uploads as (object key, succeeded) pairs. -/
inductive UploadResult where
  | noBucket : UploadResult
  | panicked : String → UploadResult
  | done : List (String × Bool) → UploadResult
deriving Repr, DecidableEq

/-- The body of the `upload_assets` loop over `metadata.iter()`: each
record becomes one PUT attempt keyed by `processed_relative_path`; a failed
PUT is logged and skipped, the loop continues. -/
def uploadLoop (cfg : PacklerConfig) (env : UploadEnv) :
    List AssetMetadata → UploadResult
  | [] => .done []
  | item :: rest =>
    let src := cfg.dist_dir ++ item.processed_relative_path
    let object_name := pathStr item.processed_relative_path
    match env.mime src with
    | none => .panicked "could not get content type"
    | some _ =>
      if env.openOk src = false then
        .panicked "Could not open file to upload"
      else
        match uploadLoop cfg env rest with
        | .panicked s => .panicked s
        | .noBucket => .noBucket
        | .done l => .done ((object_name, env.uploadOk object_name) :: l)

/-- `upload_assets`: fail fast (logged configuration error, no uploads)
when no bucket is configured, otherwise attempt every record in manifest
order. -/
def uploadAssets (bucket : Option String) (cfg : PacklerConfig) (env : UploadEnv)
    (metadata : AssetsOutput) : UploadResult :=
  match bucket with
  | none => .noBucket
  | some _ => uploadLoop cfg env metadata.iterAll

/-- The observable effects of one `deploy_assets` call. -/
structure DeployEffects where
  manifestWritten : Option Json
  uploads : UploadResult
  corsSet : Bool
deriving Repr

/-- `deploy_assets`: build, upload, write the manifest file, then set CORS
only when a bucket is configured.  A panic during the upload loop aborts
before the manifest write. -/
def deployAssets (bucket : Option String) (cfg : PacklerConfig) (env : UploadEnv)
    (imgRes sassRes : Except String (List AssetMetadata)) : DeployEffects :=
  match buildAssetsInner imgRes sassRes with
  | .error _ => { manifestWritten := none, uploads := .done [], corsSet := false }
  | .ok metadata =>
    match uploadAssets bucket cfg env metadata with
    | .panicked s =>
      { manifestWritten := none, uploads := .panicked s, corsSet := false }
    | u =>
      { manifestWritten := some (serializeManifest metadata)
        uploads := u
        corsSet := bucket.isSome }

/-! ## Watch loop (`Run::start`, `lib.rs` lines 326-368) -/

/-- The debounce window: `Duration::from_secs(2)`, in milliseconds. -/
def debounceMs : Nat := 2000

/-- The watch loop over a time-stamped stream of change-event batches
(timestamps in milliseconds, nondecreasing): an event strictly beyond the
debounce window since the last trigger fires a synchronous rebuild and
resets the reference timestamp; any other event batch is discarded.
Returns the timestamps at which rebuilds fire. -/
def watchTriggers (latestRun : Nat) : List Nat → List Nat
  | [] => []
  | t :: rest =>
    if latestRun + debounceMs < t then
      t :: watchTriggers t rest
    else
      watchTriggers latestRun rest

/-! ## Supporting lemmas -/

theorem lastDotIdx_take_drop :
    ∀ (s : List Char) (i : Nat), lastDotIdx s = some i →
      s.take i ++ '.' :: s.drop (i + 1) = s := by
  intro s
  induction s with
  | nil => intro i h; simp [lastDotIdx] at h
  | cons c cs ih =>
    intro i h
    unfold lastDotIdx at h
    cases hcs : lastDotIdx cs with
    | some j =>
      rw [hcs] at h
      cases h
      simpa using ih j hcs
    | none =>
      rw [hcs] at h
      by_cases hc : c = '.'
      · simp [hc] at h
        subst h
        simp [hc]
      · simp [hc] at h

theorem stemExt_recombine (name stem ext : String)
    (h : stemExt name = (stem, some ext)) : stem ++ "." ++ ext = name := by
  obtain ⟨data⟩ := name
  unfold stemExt at h
  cases hl : lastDotIdx (String.mk data).toList with
  | none => rw [hl] at h; simp at h
  | some i =>
    rw [hl] at h
    match i, hl with
    | 0, _ => simp at h
    | (n + 1), hl =>
      simp only [Prod.mk.injEq, Option.some.injEq] at h
      obtain ⟨hstem, hext⟩ := h
      have hrec := lastDotIdx_take_drop (String.mk data).toList (n + 1) hl
      subst hstem hext
      show String.mk _ = String.mk data
      simp only [String.toList] at hrec ⊢
      rw [List.append_assoc]
      exact congrArg String.mk hrec

/-- C1, amended. For every relative input path with a file stem and a final
extension and every 64-bit hash, the naming operation succeeds and returns
the same path with the file name rewritten to `<stem>-<hash-hex>.<ext>`,
where the hex is Rust's minimal-width (unpadded) lowercase rendering, the
hash is inserted immediately before the final extension, every intermediate
path segment is preserved, and the stem is the file-stem (last-dot split),
so the stem and extension reassemble to the original file name, keeping
every internal dot. -/
theorem c1_naming (p : RPath) (name stem ext : String) (h : Nat)
    (hn : fileName p = some name) (hs : stemExt name = (stem, some ext)) :
    hashedPath p h = some (p.dropLast ++ [stem ++ "-" ++ hexU64 h ++ "." ++ ext])
    ∧ stem ++ "." ++ ext = name := by
  constructor
  · simp only [hashedPath, hn, hs]
    rfl
  · exact stemExt_recombine name stem ext hs

/-- C1, witness: the amended naming theorem applied at a concrete path with
two internal dots and hash `10` (hex `"a"`). -/
theorem c1_naming_witness :
    hashedPath ["images", "photo.large.png"] 10
      = some ((["images", "photo.large.png"] : RPath).dropLast
          ++ ["photo.large" ++ "-" ++ hexU64 10 ++ "." ++ "png"])
    ∧ "photo.large" ++ "." ++ "png" = "photo.large.png" :=
  c1_naming ["images", "photo.large.png"] "photo.large.png" "photo.large" "png" 10
    rfl (by decide)

/-- C1, counterexample to the claim as stated: the hash hex is not fixed
width.  `format!("{:x}", _)` renders hash `5` with one hex digit and hash
`4660` with four, so the rewritten file names embed hex runs of different
widths. -/
theorem c1_fixed_width_counterexample :
    hashedPath ["images", "logo.png"] 5 = some ["images", "logo-5.png"]
    ∧ hashedPath ["images", "logo.png"] 4660 = some ["images", "logo-1234.png"]
    ∧ (hexU64 5).length = 1
    ∧ (hexU64 4660).length = 4
    ∧ (1 : Nat) ≠ 4 := by
  refine ⟨by decide, by decide, by decide, by decide, by decide⟩

/-- A concrete sample configuration: the library defaults of `config.rs`,
with the workspace `target` directory fixed. -/
def sampleCfg : PacklerConfig :=
  { assets_source_dir := ["assets"]
    images_dir_name := "images"
    sass_dir_name := "css"
    sass_version := "1.59.3"
    target := ["target"]
    dist_dir := ["dist"]
    metadata_filename := "assets.json" }

/-- C2. `processed_relative_path` is a pure deterministic function of the
logical path and the content hash: two image-pipeline runs over entries
with the same logical (source-relative) path and the same byte content
produce the same hash — the digest of exactly those bytes — and the same
processed relative path, namely the hashed rewrite of the logical path. -/
theorem c2_content_addressing (cfg : PacklerConfig) (e1 e2 : WalkEntry)
    (rel q : RPath) (b : List Nat)
    (hf1 : e1.isFile = true) (hf2 : e2.isFile = true)
    (h1 : dropPre cfg.assets_source_dir e1.path = some rel)
    (h2 : dropPre cfg.assets_source_dir e2.path = some rel)
    (hc1 : e1.content = some b) (hc2 : e2.content = some b)
    (hq : hashedPath rel (seaHash b) = some q) :
    ∃ r1 r2,
      collectImages cfg [.entry e1] = .ok [r1]
      ∧ collectImages cfg [.entry e2] = .ok [r2]
      ∧ r1.hash = r2.hash ∧ r1.processed_relative_path = r2.processed_relative_path
      ∧ r1.hash = seaHash b ∧ r1.processed_relative_path = q
      ∧ r1.logical_path = rel ∧ r2.logical_path = rel := by
  refine ⟨{ source_path := e1.path, logical_path := rel,
            processed_relative_path := q, hash := seaHash b },
          { source_path := e2.path, logical_path := rel,
            processed_relative_path := q, hash := seaHash b },
          ?_, ?_, rfl, rfl, rfl, rfl, rfl, rfl⟩
  · simp [collectImages, recordOf, hf1, h1, hc1, hq, Except.map]
  · simp [collectImages, recordOf, hf2, h2, hc2, hq, Except.map]

/-- C2, witness: two walk entries for the same file bytes `[1, 2]` at
logical path `images/logo.png` yield the same hash and the same processed
relative path `images/logo-8328907b4eb71a2.png`. -/
theorem c2_content_addressing_witness :
    ∃ r1 r2,
      collectImages sampleCfg
          [.entry { path := ["assets", "images", "logo.png"], isFile := true,
                    content := some [1, 2] }] = .ok [r1]
      ∧ collectImages sampleCfg
          [.entry { path := ["assets", "images", "logo.png"], isFile := true,
                    content := some [1, 2] }] = .ok [r2]
      ∧ r1.hash = r2.hash ∧ r1.processed_relative_path = r2.processed_relative_path
      ∧ r1.hash = seaHash [1, 2]
      ∧ r1.processed_relative_path = ["images", "logo-8328907b4eb71a2.png"]
      ∧ r1.logical_path = ["images", "logo.png"]
      ∧ r2.logical_path = ["images", "logo.png"] :=
  c2_content_addressing sampleCfg
    { path := ["assets", "images", "logo.png"], isFile := true, content := some [1, 2] }
    { path := ["assets", "images", "logo.png"], isFile := true, content := some [1, 2] }
    ["images", "logo.png"] ["images", "logo-8328907b4eb71a2.png"] [1, 2]
    rfl rfl (by decide) (by decide) rfl rfl (by decide)

/-- The record (if any) that one walk item should contribute to the image
batch: walk errors and non-file entries contribute nothing; a regular file
contributes its metadata record when none of the per-file operations
panics. -/
def itemRecord (cfg : PacklerConfig) (it : WalkItem) : Option AssetMetadata :=
  match it with
  | .walkErr _ => none
  | .entry e => if e.isFile then (recordOf cfg e).toOption else none

/-- C3, amended. In the image pipeline, walk (enumeration) errors are
logged as warnings and excluded and non-file entries are skipped silently,
neither being fatal to the batch; provided every regular-file entry's bytes
can be read (and its record built), the stage returns exactly the records
of the remaining files, in order.  (As stated the claim is false: a file
whose bytes cannot be read makes the whole stage panic, see the
counterexample.) -/
theorem c3_partial_failure_amended (cfg : PacklerConfig) (items : List WalkItem)
    (h : ∀ e, WalkItem.entry e ∈ items → e.isFile = true →
          ∃ r, recordOf cfg e = .ok r) :
    collectImages cfg items = .ok (items.filterMap (itemRecord cfg)) := by
  induction items with
  | nil => simp [collectImages]
  | cons it rest ih =>
    have hrest : ∀ e, WalkItem.entry e ∈ rest → e.isFile = true →
        ∃ r, recordOf cfg e = .ok r := by
      intro e he hf
      exact h e (List.mem_cons_of_mem _ he) hf
    cases it with
    | walkErr s =>
      simpa [collectImages, itemRecord] using ih hrest
    | entry e =>
      by_cases hf : e.isFile = true
      · obtain ⟨r, hr⟩ := h e (List.mem_cons_self _ _) hf
        simp [collectImages, itemRecord, hf, hr, ih hrest, Except.toOption, Except.map]
      · simp only [Bool.not_eq_true] at hf
        simpa [collectImages, itemRecord, hf] using ih hrest

/-- C3, witness: a batch holding a walk error, a directory, and two
readable files returns exactly the two file records. -/
theorem c3_partial_failure_witness :
    collectImages sampleCfg
      [.walkErr "permission denied",
       .entry { path := ["assets", "images", "sub"], isFile := false, content := none },
       .entry { path := ["assets", "images", "a.png"], isFile := true, content := some [0] },
       .entry { path := ["assets", "images", "b.png"], isFile := true, content := some [1] }]
      = .ok ([WalkItem.walkErr "permission denied",
              .entry { path := ["assets", "images", "sub"], isFile := false, content := none },
              .entry { path := ["assets", "images", "a.png"], isFile := true, content := some [0] },
              .entry { path := ["assets", "images", "b.png"], isFile := true, content := some [1] }].filterMap
                (itemRecord sampleCfg)) := by
  refine c3_partial_failure_amended sampleCfg _ ?_
  intro e he hf
  simp only [List.mem_cons, List.not_mem_nil, or_false] at he
  rcases he with he | he | he | he
  · exact absurd he (by simp)
  · injection he with h; subst h; exact absurd hf (by decide)
  · injection he with h; subst h; exact ⟨_, rfl⟩
  · injection he with h; subst h; exact ⟨_, rfl⟩

/-- C3, counterexample to the claim as stated: an entry whose bytes cannot
be read is not logged-and-excluded; the `unwrap` panics, the whole image
stage aborts, and even the readable file's record is lost. -/
theorem c3_read_failure_counterexample :
    collectImages sampleCfg
      [.entry { path := ["assets", "images", "ok.png"], isFile := true, content := some [0] },
       .entry { path := ["assets", "images", "bad.png"], isFile := true, content := none }]
      = .error "std fs read unwrap" := by
  rfl

theorem getLast?_some_of_ne_nil : ∀ (l : List String), l ≠ [] → ∃ n, l.getLast? = some n
  | [a], _ => ⟨a, rfl⟩
  | a :: b :: rest, _ => by
    obtain ⟨n, hn⟩ := getLast?_some_of_ne_nil (b :: rest) (by simp)
    exact ⟨n, by rw [List.getLast?_cons_cons]; exact hn⟩

/-- C4. In the stylesheet pipeline, once the compiler resolves: an entry
point whose resolved source path does not exist fails with the
entry-point-missing condition; the stage returns exactly the per-entry
successes (errors are dropped, order preserved); and when every entry
point is missing it returns the empty list, not an error. -/
theorem c4_missing_entry_points (cfg : PacklerConfig) (env : SassEnv)
    (sp : RPath) (entries : List RPath)
    (hpan : ∀ e ∈ entries, isPanic (sassRunOne cfg env sp e false) = none) :
    sassStart cfg env (some sp) entries
      = .ok ((entries.map fun e => sassRunOne cfg env sp e false).filterMap Except.toOption)
    ∧ (∀ e ∈ entries, env.pathExists (cfg.source_sass_dir ++ e) = false →
        sassRunOne cfg env sp e false = .error (.entryPointDoesNotExist (pathStr e)))
    ∧ ((∀ e ∈ entries, env.pathExists (cfg.source_sass_dir ++ e) = false) →
        sassStart cfg env (some sp) entries = .ok []) := by
  have hmissing : ∀ e ∈ entries, env.pathExists (cfg.source_sass_dir ++ e) = false →
      sassRunOne cfg env sp e false = .error (.entryPointDoesNotExist (pathStr e)) := by
    intro e _ hne
    simp [sassRunOne, hne]
  have hnopanic : ((entries.map fun e => sassRunOne cfg env sp e false).filterMap isPanic) = [] := by
    rw [List.filterMap_map, List.filterMap_eq_nil_iff]
    intro e he
    exact hpan e he
  have hstart : sassStart cfg env (some sp) entries
      = .ok ((entries.map fun e => sassRunOne cfg env sp e false).filterMap Except.toOption) := by
    simp [sassStart, hnopanic]
  refine ⟨hstart, hmissing, ?_⟩
  intro hall
  rw [hstart]
  congr 1
  rw [List.filterMap_map, List.filterMap_eq_nil_iff]
  intro e he
  rw [Function.comp_apply, hmissing e he (hall e he)]
  rfl

/-- A sample effect environment for the stylesheet pipeline: only
`assets/css/app.scss` exists, the compiler always exits 0, the compiled
CSS reads back as one byte, and all filesystem calls succeed. -/
def sampleSassEnv : SassEnv :=
  { pathExists := fun p => decide (p = ["assets", "css", "app.scss"])
    spawn := fun _ _ => some 0
    readCss := fun _ => some [104]
    mkdirOk := fun _ => true
    copyOk := fun _ _ => true
    removeOk := fun _ => true }

/-- C4, witness: of the two configured entry points, `missing.scss` does
not exist; the stage returns exactly the successful subset. -/
theorem c4_missing_entry_points_witness :
    sassStart sampleCfg sampleSassEnv (some ["bin", "sass"]) [["app.scss"], ["missing.scss"]]
      = .ok (([["app.scss"], ["missing.scss"]].map
          fun e => sassRunOne sampleCfg sampleSassEnv ["bin", "sass"] e false).filterMap
            Except.toOption) :=
  (c4_missing_entry_points sampleCfg sampleSassEnv ["bin", "sass"]
    [["app.scss"], ["missing.scss"]]
    (by
      intro e he
      simp only [List.mem_cons, List.not_mem_nil, or_false] at he
      rcases he with rfl | rfl <;> rfl)).1

/-- C5. The stylesheet pipeline invokes the external compiler with argv
`[--no-source-map, -s, <style>, <input>, <output>]` where the style is
`compressed` or `expanded` according to the compression flag, the input is
the entry's resolved source path, and the output is the scratch-directory
path mirroring the entry's relative subpath with a `.css` extension; the
invocation succeeds exactly when the spawn succeeds with exit code 0, and
a spawn failure or non-zero exit makes that entry fail with the
external-tool error. -/
theorem c5_compiler_invocation (cfg : PacklerConfig) (env : SassEnv)
    (sp entry : RPath) (compress : Bool) :
    sassArgs cfg entry compress
      = ["--no-source-map", "-s", if compress then "compressed" else "expanded",
         pathStr (cfg.source_sass_dir ++ entry),
         pathStr (setExt (intermediateDir cfg ++ entry) "css")]
    ∧ intermediateDir cfg = cfg.target ++ ["packler", "sass"]
    ∧ (runCommand env sp (sassArgs cfg entry compress) = .ok ()
        ↔ env.spawn sp (sassArgs cfg entry compress) = some 0)
    ∧ (env.pathExists (cfg.source_sass_dir ++ entry) = true →
        env.spawn sp (sassArgs cfg entry compress) ≠ some 0 →
        sassRunOne cfg env sp entry compress = .error .toolErr) := by
  refine ⟨rfl, rfl, ?_, ?_⟩
  · cases hs : env.spawn sp (sassArgs cfg entry compress) with
    | none => simp [runCommand, hs]
    | some c =>
      by_cases hc : c = 0 <;> simp [runCommand, hs, hc]
  · intro hex hsp
    obtain ⟨name, hname⟩ :=
      getLast?_some_of_ne_nil (cfg.source_sass_dir ++ entry)
        (by simp [PacklerConfig.source_sass_dir])
    cases hs : env.spawn sp (sassArgs cfg entry compress) with
    | none =>
      simp [sassRunOne, hex, fileName, hname, runCommand, hs]
    | some c =>
      have hc : c ≠ 0 := fun h => hsp (by rw [hs, h])
      simp [sassRunOne, hex, fileName, hname, runCommand, hs, hc]

/-- C5, witness: with a compiler that exits with status 1, the entry fails
with the external-tool error. -/
theorem c5_compiler_invocation_witness :
    sassRunOne sampleCfg
      { pathExists := fun _ => true
        spawn := fun _ _ => some 1
        readCss := fun _ => some []
        mkdirOk := fun _ => true
        copyOk := fun _ _ => true
        removeOk := fun _ => true }
      ["bin", "sass"] ["app.scss"] false = .error .toolErr :=
  (c5_compiler_invocation sampleCfg
    { pathExists := fun _ => true
      spawn := fun _ _ => some 1
      readCss := fun _ => some []
      mkdirOk := fun _ => true
      copyOk := fun _ _ => true
      removeOk := fun _ => true }
    ["bin", "sass"] ["app.scss"] false).2.2.2 rfl (by decide)

/-- The orchestrator's per-pipeline failure policy
(the two `match` arms of `build_assets_inner`): an internal pipeline
failure is replaced by the empty record list. -/
def pipelineFallback (r : Except String (List AssetMetadata)) : List AssetMetadata :=
  match r with
  | .ok l => l
  | .error _ => []

/-- C6. The build orchestrator substitutes an empty result for a failed
pipeline and continues; it merges the two result sequences with all image
records before all stylesheet records; and it persists the manifest
unconditionally — in particular also when both pipelines failed and both
sequences are empty. -/
theorem c6_orchestrator_merge (ir sr : Except String (List AssetMetadata)) :
    buildAssetsInner ir sr
      = .ok { images := pipelineFallback ir, sass := pipelineFallback sr }
    ∧ buildAssets ir sr
      = some (serializeManifest { images := pipelineFallback ir, sass := pipelineFallback sr })
    ∧ AssetsOutput.iterAll { images := pipelineFallback ir, sass := pipelineFallback sr }
      = pipelineFallback ir ++ pipelineFallback sr
    ∧ buildAssets (.error "could not process images") (.error "could not process SASS files")
      = some (serializeManifest { images := [], sass := [] }) :=
  ⟨rfl, rfl, rfl, rfl⟩

theorem splitC_no_slash (s : List Char) (h : ¬ '/' ∈ s) : splitC s = [s] := by
  induction s with
  | nil => rfl
  | cons c cs ih =>
    have hc : ¬ c = '/' := by
      intro hc
      exact h (hc ▸ List.mem_cons_self c cs)
    have hcs : ¬ '/' ∈ cs := fun hm => h (List.mem_cons_of_mem _ hm)
    simp [splitC, hc, ih hcs]

theorem splitC_append (s r : List Char) (h : ¬ '/' ∈ s) :
    splitC (s ++ '/' :: r) = s :: splitC r := by
  induction s with
  | nil => simp [splitC]
  | cons c cs ih =>
    have hc : ¬ c = '/' := by
      intro hc
      exact h (hc ▸ List.mem_cons_self c cs)
    have hcs : ¬ '/' ∈ cs := fun hm => h (List.mem_cons_of_mem _ hm)
    simp [splitC, hc, ih hcs]

theorem joinC_roundtrip : ∀ (comps : List (List Char)), comps ≠ [] →
    (∀ c ∈ comps, ¬ '/' ∈ c) → splitC (joinC comps) = comps
  | [], hne, _ => absurd rfl hne
  | [s], _, h => by
    simpa [joinC] using splitC_no_slash s (h s (List.mem_singleton_self s))
  | s :: t :: rest, _, h => by
    have hs : ¬ '/' ∈ s := h s (List.mem_cons_self _ _)
    have hrest : ∀ c ∈ t :: rest, ¬ '/' ∈ c :=
      fun c hc => h c (List.mem_cons_of_mem _ hc)
    show splitC (s ++ '/' :: joinC (t :: rest)) = s :: t :: rest
    rw [splitC_append _ _ hs, joinC_roundtrip (t :: rest) (by simp) hrest]

/-- A path that serde can round-trip through its string rendering:
nonempty, with no separator inside a component. -/
def wfPath (p : RPath) : Bool :=
  !p.isEmpty && p.all (fun s => !(s.toList.contains '/'))

/-- A manifest record whose three paths are all round-trippable. -/
def wfRecord (r : AssetMetadata) : Bool :=
  wfPath r.source_path && wfPath r.logical_path && wfPath r.processed_relative_path

theorem unpath_path (p : RPath) (h : wfPath p = true) : unpathStr (pathStr p) = p := by
  have hne : p ≠ [] := by
    intro hp
    rw [hp] at h
    simp [wfPath] at h
  have hall : ∀ c ∈ p.map String.toList, ¬ '/' ∈ c := by
    intro c hc
    obtain ⟨s, hs, rfl⟩ := List.mem_map.mp hc
    have := (List.all_eq_true.mp (Bool.and_elim_right h)) s hs
    simpa [List.contains] using this
  have hmapne : p.map String.toList ≠ [] := by
    simpa using hne
  show (splitC (String.mk (joinC (p.map String.toList))).toList).map String.mk = p
  have : (String.mk (joinC (p.map String.toList))).toList = joinC (p.map String.toList) := rfl
  rw [this, joinC_roundtrip _ hmapne hall, List.map_map]
  have : String.mk ∘ String.toList = id := by
    funext s
    cases s
    rfl
  rw [this, List.map_id]

theorem parse_serialize_record (r : AssetMetadata) (h : wfRecord r = true) :
    parseRecord (serializeRecord r) = some { r with hash := 0 } := by
  have hw := h
  unfold wfRecord at hw
  have h1 : wfPath r.source_path = true := by
    have := Bool.and_elim_left (Bool.and_elim_left hw)
    exact this
  have h2 : wfPath r.logical_path = true := Bool.and_elim_right (Bool.and_elim_left hw)
  have h3 : wfPath r.processed_relative_path = true := Bool.and_elim_right hw
  have g1 : jsonGet (serializeRecord r) "source_path"
      = some (.str (pathStr r.source_path)) := rfl
  have g2 : jsonGet (serializeRecord r) "logical_path"
      = some (.str (pathStr r.logical_path)) := rfl
  have g3 : jsonGet (serializeRecord r) "processed_relative_path"
      = some (.str (pathStr r.processed_relative_path)) := rfl
  simp only [parseRecord, g1, g2, g3, parsePath,
    unpath_path _ h1, unpath_path _ h2, unpath_path _ h3]

theorem parse_serialize_records (l : List AssetMetadata)
    (h : ∀ r ∈ l, wfRecord r = true) :
    parseRecords (.arr (l.map serializeRecord))
      = some (l.map (fun r => { r with hash := 0 })) := by
  induction l with
  | nil => rfl
  | cons r rest ih =>
    have hr : wfRecord r = true := h r (List.mem_cons_self _ _)
    have hrest : ∀ x ∈ rest, wfRecord x = true :=
      fun x hx => h x (List.mem_cons_of_mem _ hx)
    have ihr := ih hrest
    simp only [parseRecords] at ihr ⊢
    simp [parseRecordList, parse_serialize_record r hr, ihr]

/-- C7. Serializing a manifest and deserializing the result yields the
same records up to the intentionally omitted hash (so the same
`(logical_path, processed_relative_path)` pairs, in order); the serialized
object has exactly the keys `images` and `sass`, and every serialized
record has exactly the keys `source_path`, `logical_path`,
`processed_relative_path` — the content hash is omitted. -/
theorem c7_manifest_roundtrip (m : AssetsOutput)
    (h : ∀ r ∈ m.iterAll, wfRecord r = true) :
    parseManifest (serializeManifest m)
      = some { images := m.images.map (fun r => { r with hash := 0 }),
               sass := m.sass.map (fun r => { r with hash := 0 }) }
    ∧ (m.images.map (fun r => { r with hash := 0 })).map
        (fun r => (r.logical_path, r.processed_relative_path))
      = m.images.map (fun r => (r.logical_path, r.processed_relative_path))
    ∧ (m.sass.map (fun r => { r with hash := 0 })).map
        (fun r => (r.logical_path, r.processed_relative_path))
      = m.sass.map (fun r => (r.logical_path, r.processed_relative_path))
    ∧ jsonKeys (serializeManifest m) = ["images", "sass"]
    ∧ ∀ r ∈ m.iterAll, jsonKeys (serializeRecord r)
        = ["source_path", "logical_path", "processed_relative_path"] := by
  have himg : ∀ r ∈ m.images, wfRecord r = true :=
    fun r hr => h r (List.mem_append.mpr (Or.inl hr))
  have hsass : ∀ r ∈ m.sass, wfRecord r = true :=
    fun r hr => h r (List.mem_append.mpr (Or.inr hr))
  refine ⟨?_, ?_, ?_, rfl, fun r _ => rfl⟩
  · have g1 : jsonGet (serializeManifest m) "images"
        = some (.arr (m.images.map serializeRecord)) := rfl
    have g2 : jsonGet (serializeManifest m) "sass"
        = some (.arr (m.sass.map serializeRecord)) := rfl
    simp only [parseManifest, g1, g2,
      parse_serialize_records _ himg, parse_serialize_records _ hsass]
  · rw [List.map_map]
    exact List.map_congr_left (fun r _ => rfl)
  · rw [List.map_map]
    exact List.map_congr_left (fun r _ => rfl)

/-- C7, witness: a concrete two-record manifest round-trips. -/
theorem c7_manifest_roundtrip_witness :
    parseManifest (serializeManifest
      { images := [{ source_path := ["assets", "images", "logo.png"],
                     logical_path := ["images", "logo.png"],
                     processed_relative_path := ["images", "logo-abc.png"],
                     hash := 7 }],
        sass := [{ source_path := ["assets", "css", "app.scss"],
                   logical_path := ["css", "app.scss"],
                   processed_relative_path := ["css", "app-1f.css"],
                   hash := 31 }] })
      = some { images := [{ source_path := ["assets", "images", "logo.png"],
                            logical_path := ["images", "logo.png"],
                            processed_relative_path := ["images", "logo-abc.png"],
                            hash := 0 }],
               sass := [{ source_path := ["assets", "css", "app.scss"],
                          logical_path := ["css", "app.scss"],
                          processed_relative_path := ["css", "app-1f.css"],
                          hash := 0 }] } :=
  (c7_manifest_roundtrip
    { images := [{ source_path := ["assets", "images", "logo.png"],
                   logical_path := ["images", "logo.png"],
                   processed_relative_path := ["images", "logo-abc.png"],
                   hash := 7 }],
      sass := [{ source_path := ["assets", "css", "app.scss"],
                 logical_path := ["css", "app.scss"],
                 processed_relative_path := ["css", "app-1f.css"],
                 hash := 31 }] }
    (by
      intro r hr
      simp only [AssetsOutput.iterAll, List.mem_append, List.mem_singleton] at hr
      rcases hr with rfl | rfl <;> decide)).1

theorem uploadLoop_all_attempted (cfg : PacklerConfig) (env : UploadEnv)
    (l : List AssetMetadata)
    (hm : ∀ r ∈ l, (env.mime (cfg.dist_dir ++ r.processed_relative_path)).isSome = true)
    (ho : ∀ r ∈ l, env.openOk (cfg.dist_dir ++ r.processed_relative_path) = true) :
    uploadLoop cfg env l
      = .done (l.map fun r =>
          (pathStr r.processed_relative_path,
           env.uploadOk (pathStr r.processed_relative_path))) := by
  induction l with
  | nil => rfl
  | cons item rest ih =>
    obtain ⟨mt, hmt⟩ := Option.isSome_iff_exists.mp (hm item (List.mem_cons_self _ _))
    have hoi := ho item (List.mem_cons_self _ _)
    have ihr := ih (fun r hr => hm r (List.mem_cons_of_mem _ hr))
      (fun r hr => ho r (List.mem_cons_of_mem _ hr))
    simp [uploadLoop, hmt, hoi, ihr]

/-- C8. The upload stage fails fast (logged configuration error, zero
uploads) when no bucket is configured; otherwise, when every local file
has a resolvable MIME type and can be opened, it attempts exactly one PUT
per manifest record — images first, then stylesheets — keyed by
`processed_relative_path`, regardless of which individual uploads fail
(a failed PUT is logged and skipped, the loop continues). -/
theorem c8_upload_stage (b : String) (cfg : PacklerConfig) (env : UploadEnv)
    (m : AssetsOutput)
    (hm : ∀ r ∈ m.iterAll, (env.mime (cfg.dist_dir ++ r.processed_relative_path)).isSome = true)
    (ho : ∀ r ∈ m.iterAll, env.openOk (cfg.dist_dir ++ r.processed_relative_path) = true) :
    uploadAssets none cfg env m = .noBucket
    ∧ uploadAssets (some b) cfg env m
      = .done (m.iterAll.map fun r =>
          (pathStr r.processed_relative_path,
           env.uploadOk (pathStr r.processed_relative_path)))
    ∧ m.iterAll = m.images ++ m.sass := by
  exact ⟨rfl, uploadLoop_all_attempted cfg env m.iterAll hm ho, rfl⟩

/-- C8, witness: a two-record manifest with one failing PUT still attempts
both uploads, in manifest order, and a missing bucket attempts none. -/
theorem c8_upload_stage_witness :
    uploadAssets none sampleCfg
      { mime := fun _ => some "application/octet-stream"
        openOk := fun _ => true
        uploadOk := fun k => decide (k = "images/logo-abc.png") }
      { images := [{ source_path := ["assets", "images", "logo.png"],
                     logical_path := ["images", "logo.png"],
                     processed_relative_path := ["images", "logo-abc.png"],
                     hash := 7 }],
        sass := [{ source_path := ["assets", "css", "app.scss"],
                   logical_path := ["css", "app.scss"],
                   processed_relative_path := ["css", "app-1f.css"],
                   hash := 31 }] } = .noBucket
    ∧ uploadAssets (some "static-bucket") sampleCfg
      { mime := fun _ => some "application/octet-stream"
        openOk := fun _ => true
        uploadOk := fun k => decide (k = "images/logo-abc.png") }
      { images := [{ source_path := ["assets", "images", "logo.png"],
                     logical_path := ["images", "logo.png"],
                     processed_relative_path := ["images", "logo-abc.png"],
                     hash := 7 }],
        sass := [{ source_path := ["assets", "css", "app.scss"],
                   logical_path := ["css", "app.scss"],
                   processed_relative_path := ["css", "app-1f.css"],
                   hash := 31 }] }
      = .done ((AssetsOutput.iterAll
          { images := [{ source_path := ["assets", "images", "logo.png"],
                         logical_path := ["images", "logo.png"],
                         processed_relative_path := ["images", "logo-abc.png"],
                         hash := 7 }],
            sass := [{ source_path := ["assets", "css", "app.scss"],
                       logical_path := ["css", "app.scss"],
                       processed_relative_path := ["css", "app-1f.css"],
                       hash := 31 }] }).map fun r =>
          (pathStr r.processed_relative_path,
           ((fun k => decide (k = "images/logo-abc.png")) (pathStr r.processed_relative_path)))) := by
  have h := c8_upload_stage "static-bucket" sampleCfg
    { mime := fun _ => some "application/octet-stream"
      openOk := fun _ => true
      uploadOk := fun k => decide (k = "images/logo-abc.png") }
    { images := [{ source_path := ["assets", "images", "logo.png"],
                   logical_path := ["images", "logo.png"],
                   processed_relative_path := ["images", "logo-abc.png"],
                   hash := 7 }],
      sass := [{ source_path := ["assets", "css", "app.scss"],
                 logical_path := ["css", "app.scss"],
                 processed_relative_path := ["css", "app-1f.css"],
                 hash := 31 }] }
    (by intro r _; rfl) (by intro r _; rfl)
  exact ⟨h.1, h.2.1⟩

/-- C10. A bucket-less deploy still runs the full asset build and writes
exactly the manifest a plain build writes; the uploads stop at the
missing-bucket configuration error and the CORS update is skipped. -/
theorem c10_bucketless_deploy (cfg : PacklerConfig) (env : UploadEnv)
    (ir sr : Except String (List AssetMetadata)) :
    (deployAssets none cfg env ir sr).manifestWritten = buildAssets ir sr
    ∧ (deployAssets none cfg env ir sr).uploads = .noBucket
    ∧ (deployAssets none cfg env ir sr).corsSet = false :=
  ⟨rfl, rfl, rfl⟩

theorem watchTriggers_none (latest : Nat) (ts : List Nat)
    (h : ∀ t ∈ ts, t ≤ latest + debounceMs) : watchTriggers latest ts = [] := by
  induction ts with
  | nil => rfl
  | cons t rest ih =>
    have ht : ¬ latest + debounceMs < t :=
      Nat.not_lt.mpr (h t (List.mem_cons_self _ _))
    simp only [watchTriggers, if_neg ht]
    exact ih (fun u hu => h u (List.mem_cons_of_mem _ hu))

theorem watchTriggers_skip_append (latest v : Nat) (ts : List Nat)
    (h : ∀ t ∈ ts, t ≤ latest + debounceMs) :
    watchTriggers latest (ts ++ [v]) = watchTriggers latest [v] := by
  induction ts with
  | nil => rfl
  | cons t rest ih =>
    have ht : ¬ latest + debounceMs < t :=
      Nat.not_lt.mpr (h t (List.mem_cons_self _ _))
    simp only [List.cons_append, watchTriggers, if_neg ht]
    exact ih (fun u hu => h u (List.mem_cons_of_mem _ hu))

/-- C9. The watch loop's debounce window is the fixed 2 seconds; an
incoming event batch triggers a synchronous rebuild (resetting the
reference timestamp to that event's time) exactly when its time exceeds
the last trigger by more than the window, and is otherwise discarded
outright; hence a burst whose later events all fall within the window of
the first produces exactly one rebuild, and one more event after the
window has elapsed produces exactly one more. -/
theorem c9_watch_debounce (init t0 v : Nat) (rest : List Nat)
    (h1 : init + debounceMs < t0)
    (h2 : ∀ u ∈ rest, u ≤ t0 + debounceMs)
    (h3 : t0 + debounceMs < v) :
    debounceMs = 2000
    ∧ (∀ latest t ts, latest + debounceMs < t →
        watchTriggers latest (t :: ts) = t :: watchTriggers t ts)
    ∧ (∀ latest t ts, ¬ latest + debounceMs < t →
        watchTriggers latest (t :: ts) = watchTriggers latest ts)
    ∧ watchTriggers init (t0 :: rest) = [t0]
    ∧ watchTriggers init ((t0 :: rest) ++ [v]) = [t0, v] := by
  refine ⟨rfl, ?_, ?_, ?_, ?_⟩
  · intro latest t ts ht
    simp [watchTriggers, if_pos ht]
  · intro latest t ts ht
    simp [watchTriggers, if_neg ht]
  · simp only [watchTriggers, if_pos h1]
    rw [watchTriggers_none t0 rest h2]
  · simp only [List.cons_append, watchTriggers, if_pos h1]
    rw [show rest.append [v] = rest ++ [v] from rfl,
      watchTriggers_skip_append t0 v rest h2]
    simp [watchTriggers, if_pos h3]

/-- C9, witness: events at 2001, 2500 and 4000 ms (all within 2 s of the
trigger at 2001) yield one rebuild; a further event at 4002 ms yields a
second. -/
theorem c9_watch_debounce_witness :
    watchTriggers 0 [2001, 2500, 4000] = [2001]
    ∧ watchTriggers 0 ([2001, 2500, 4000] ++ [4002]) = [2001, 4002] := by
  have h := c9_watch_debounce 0 2001 4002 [2500, 4000] (by decide)
    (by intro u hu; fin_cases hu <;> decide) (by decide)
  exact ⟨h.2.2.2.1, h.2.2.2.2⟩

end Packler
